import Mathlib

/-!
# Verification of MarketingContentGen (`mcg.py`)

A shallow embedding of the core logic of `mcg.py`:

* `limit_post_length` — the per-channel length limiter (ChannelLimiter);
* `publish_blog_post` — the CMS publisher, with the HTTP exchange modelled
  as an `Except` value (transport failure or a response);
* `generate_social_content_with_retry` — the per-channel bounded-retry
  social generation loop, with the generative backend modelled as an
  oracle `String → Nat → Except String String` (channel, attempt ↦
  raised-exception message or returned text);
* the cron worker loop `cron_function` as a small-step machine emitting
  generate/publish/sleep actions, plus the manual generate-and-publish
  button handler;
* the thread lifecycle of `start_cron_job` / `stop_cron_job` as a state
  machine over the history of spawned worker threads.

Theorems at the end settle the specification claims about these functions.
-/

namespace MCG

/-! ## ChannelLimiter: `limit_post_length` (mcg.py lines 222-244) -/

/-- The `limits` dict literal of `limit_post_length`. -/
def limits : List (String × Nat) :=
  [("X", 280), ("Facebook", 2000), ("LinkedIn", 3000),
   ("Instagram", 2200), ("TikTok", 150), ("Youtube", 1000)]

/-- `limits.get(channel, 2000)`. -/
def max_length (channel : String) : Nat :=
  (limits.lookup channel).getD 2000

/-- The sentence delimiters `.`, `!`, `?` searched by `rfind`. -/
def isDelim (c : Char) : Bool :=
  c = '.' || c = '!' || c = '?'

/-- Index of the last delimiter in the list, i.e. the value of
`max(truncated.rfind('.'), truncated.rfind('!'), truncated.rfind('?'))`,
with `none` standing for Python's `-1`. -/
def lastDelim : List Char → Option Nat
  | [] => none
  | c :: cs =>
    match lastDelim cs with
    | some i => some (i + 1)
    | none => if isDelim c then some 0 else none

/-- `limit_post_length(content, channel)` (mcg.py lines 222-244): return
`content` unchanged when within the channel limit, otherwise hard-truncate
to `max_length` characters and cut back to the last sentence delimiter in
that window when one exists. -/
def limit_post_length (content : String) (channel : String) : String :=
  let maxLen := max_length channel
  if content.length ≤ maxLen then
    content
  else
    let truncated := content.data.take maxLen
    match lastDelim truncated with
    | some i => String.mk (truncated.take (i + 1))
    | none => String.mk truncated

/-! ### Lemmas about `lastDelim` -/

lemma lastDelim_lt_length {l : List Char} {i : Nat}
    (h : lastDelim l = some i) : i < l.length := by
  induction l generalizing i with
  | nil => simp [lastDelim] at h
  | cons c cs ih =>
    simp only [lastDelim] at h
    cases hcs : lastDelim cs with
    | some j =>
      rw [hcs] at h
      cases h
      have := ih hcs
      simp only [List.length_cons]
      omega
    | none =>
      rw [hcs] at h
      by_cases hd : isDelim c
      · simp [hd] at h
        simp only [List.length_cons]
        omega
      · simp [hd] at h

lemma lastDelim_none_of_no_delim {l : List Char}
    (h : ∀ c ∈ l, isDelim c = false) : lastDelim l = none := by
  induction l with
  | nil => rfl
  | cons c cs ih =>
    have hc : isDelim c = false := h c (List.mem_cons_self c cs)
    have hcs : lastDelim cs = none := ih fun x hx => h x (List.mem_cons_of_mem c hx)
    simp [lastDelim, hcs, hc]

/-- `i` is the index of the last sentence delimiter of `l`: a delimiter sits
at `i` and no delimiter occurs later.  This is the spec-side description of
what `rfind`-then-`max` computes. -/
def IsLastDelim (l : List Char) (i : Nat) : Prop :=
  ∃ h : i < l.length,
    isDelim (l.get ⟨i, h⟩) = true ∧
      ∀ j, (hj : j < l.length) → i < j → isDelim (l.get ⟨j, hj⟩) = false

lemma lastDelim_eq_some_of_isLastDelim {l : List Char} {i : Nat}
    (h : IsLastDelim l i) : lastDelim l = some i := by
  induction l generalizing i with
  | nil =>
    obtain ⟨hi, _, _⟩ := h
    simp at hi
  | cons c cs ih =>
    obtain ⟨hi, hdel, hlast⟩ := h
    cases i with
    | zero =>
      have hcs : lastDelim cs = none := by
        apply lastDelim_none_of_no_delim
        intro x hx
        obtain ⟨j, hj, rfl⟩ := List.mem_iff_get.mp hx
        have := hlast (j + 1) (by simp only [List.length_cons]; omega) (by omega)
        simpa using this
      have hc : isDelim c = true := by simpa using hdel
      simp [lastDelim, hcs, hc]
    | succ i' =>
      have hkey : lastDelim cs = some i' := by
        apply ih
        refine ⟨by simp only [List.length_cons] at hi; omega, ?_, ?_⟩
        · simpa using hdel
        · intro j hj hij
          have := hlast (j + 1) (by simp only [List.length_cons]; omega) (by omega)
          simpa using this
      simp [lastDelim, hkey]

/-! ### Helper lemmas about `limit_post_length` -/

lemma string_length_data (s : String) : s.length = s.data.length := by
  cases s
  rfl

lemma length_limit_post_length_le (content channel : String) :
    (limit_post_length content channel).length ≤ max_length channel := by
  unfold limit_post_length
  by_cases h : content.length ≤ max_length channel
  · simp [h]
  · simp only [h, if_false]
    have hlen : (content.data.take (max_length channel)).length = max_length channel := by
      rw [List.length_take]
      have h2 : max_length channel < content.length := Nat.lt_of_not_le h
      rw [string_length_data] at h2
      omega
    cases hld : lastDelim (content.data.take (max_length channel)) with
    | some i =>
      have := lastDelim_lt_length hld
      simp only [hld]
      rw [String.length_mk, List.length_take]
      omega
    | none =>
      simp only [hld]
      rw [String.length_mk]
      omega

lemma limit_post_length_of_le {content channel : String}
    (h : content.length ≤ max_length channel) :
    limit_post_length content channel = content := by
  unfold limit_post_length
  simp [h]

lemma limit_post_length_idem (content channel : String) :
    limit_post_length (limit_post_length content channel) channel
      = limit_post_length content channel :=
  limit_post_length_of_le (length_limit_post_length_le content channel)

/-! ## Publisher: `publish_blog_post` (mcg.py lines 143-166)

The HTTP exchange is modelled as a value of type `Except String HttpResponse`:
`Except.error msg` is a transport exception raised by `requests.post`,
`Except.ok r` is a response with status code `r.status`.  The field
`r.jsonFields` models `response.json()` as used on the success path: it is
`some fields` when the body parses as a JSON object (so `.get('id')`
succeeds), and `none` when `response.json()` (or `.get` on a non-object)
raises — which in the source happens inside the `try` block while logging,
so the exception is caught and the function returns `False`. -/

structure HttpResponse where
  status : Nat
  jsonFields : Option (List (String × Nat))
  deriving DecidableEq, Repr

/-- `publish_blog_post(blog_post_title, blog_content)` with the HTTP call's
outcome passed in explicitly.  The title and body only feed the request
payload and do not affect the control flow.  Totality of this function (it
returns a `Bool` for every exchange outcome) models "never raises to its
caller". -/
def publish_blog_post (resp : Except String HttpResponse) : Bool :=
  match resp with
  | Except.error _ => false
  | Except.ok r =>
    if r.status = 201 then
      -- logging.info(..., response.json().get('id')) runs inside the try:
      -- if the body does not parse as a JSON object this raises, the
      -- except-handler catches it, and the function returns False.
      match r.jsonFields with
      | some _ => true
      | none => false
    else
      false

/-! ## RetryingChannelAdapter: `generate_social_content_with_retry`
(mcg.py lines 246-278)

The generative backend `social_llm(prompt)` is modelled as an oracle
`oracle : String → Nat → Except String String` giving, for each channel and
attempt index, either the raised exception's message (`Except.error`) or the
returned text (`Except.ok`).  The result dict is an insertion-ordered
association list. -/

/-- The fixed error tag prepended to `str(e)` on retry exhaustion. -/
def errorTag : String := "Error generating content: "

/-- The inner `for attempt in range(retries)` loop for one channel, with the
remaining attempt indices as a list (`List.range retries`).  Returns the
value stored for the channel, or `none` when nothing is stored — which
happens when an attempt succeeds with a falsy (empty) response and `break`
runs without a dict write, or when `retries = 0`. -/
def channelAttempts (oracle : Nat → Except String String) (channel : String) :
    List Nat → Option String
  | [] => none
  | a :: rest =>
    match oracle a with
    | Except.ok response =>
      -- `if response:` stores the limited content; `break` follows either way
      if response ≠ "" then some (limit_post_length response.trim channel) else none
    | Except.error e =>
      -- `if attempt < retries - 1:` sleep and retry, else store the error tag
      if rest = [] then some (errorTag ++ e) else channelAttempts oracle channel rest

/-- `dict.__setitem__`: update the (unique) existing binding in place,
preserving insertion order, else append. -/
def dictInsert : List (String × String) → String → String → List (String × String)
  | [], k, v => [(k, v)]
  | p :: rest, k, v => if p.1 == k then (k, v) :: rest else p :: dictInsert rest k v

/-- Membership of a key in the result dict. -/
def hasKey (d : List (String × String)) (k : String) : Bool :=
  d.any (fun p => p.1 == k)

/-- `dict[k]` on the result dict. -/
def dictLookup (d : List (String × String)) (k : String) : Option String :=
  (d.find? (fun p => p.1 == k)).map (fun p => p.2)

/-- The value stored for one channel by the retry loop (or `none` when the
loop stores nothing for it). -/
def channelResult (oracle : String → Nat → Except String String) (retries : Nat)
    (channel : String) : Option String :=
  channelAttempts (oracle channel) channel (List.range retries)

/-- The body of the outer `for channel in selected_channels` loop. -/
def generate_social_step (oracle : String → Nat → Except String String) (retries : Nat)
    (acc : List (String × String)) (channel : String) : List (String × String) :=
  match channelResult oracle retries channel with
  | some v => dictInsert acc channel v
  | none => acc

/-- `generate_social_content_with_retry(main_content, selected_channels,
retries, delay)`: iterate the channels, running the retry loop for each, and
collect the per-channel stored values into the result dict (`delay` only
pauses and is dropped; `main_content` only feeds the prompt, which the
oracle absorbs). -/
def generate_social_content_with_retry (oracle : String → Nat → Except String String)
    (selected_channels : List String) (retries : Nat) : List (String × String) :=
  selected_channels.foldl (generate_social_step oracle retries) []

/-! ### Lemmas about the retry loop and the result dict -/

lemma channelAttempts_isSome {oracle : Nat → Except String String} {channel : String}
    {attempts : List Nat} (hne : attempts ≠ [])
    (hok : ∀ a s, oracle a = Except.ok s → s ≠ "") :
    (channelAttempts oracle channel attempts).isSome = true := by
  induction attempts with
  | nil => exact absurd rfl hne
  | cons a rest ih =>
    simp only [channelAttempts]
    cases ha : oracle a with
    | ok s =>
      have : s ≠ "" := hok a s ha
      simp [this]
    | error e =>
      by_cases hr : rest = []
      · simp [hr]
      · simp only [hr, if_false]
        exact ih hr

lemma channelAttempts_all_error {oracle : Nat → Except String String} {channel : String}
    {attempts : List Nat} (hne : attempts ≠ [])
    (herr : ∀ a ∈ attempts, ∃ e, oracle a = Except.error e) :
    ∃ e, channelAttempts oracle channel attempts = some (errorTag ++ e) := by
  induction attempts with
  | nil => exact absurd rfl hne
  | cons a rest ih =>
    obtain ⟨e, he⟩ := herr a (List.mem_cons_self a rest)
    simp only [channelAttempts, he]
    by_cases hr : rest = []
    · exact ⟨e, by simp [hr]⟩
    · simp only [hr, if_false]
      exact ih hr fun x hx => herr x (List.mem_cons_of_mem a hx)

lemma dictLookup_nil (c : String) : dictLookup [] c = none := rfl

lemma dictLookup_cons (p : String × String) (d : List (String × String)) (c : String) :
    dictLookup (p :: d) c = if p.1 = c then some p.2 else dictLookup d c := by
  unfold dictLookup
  by_cases h : p.1 = c
  · rw [List.find?_cons_of_pos _ (by simp [h])]
    simp [h]
  · rw [List.find?_cons_of_neg _ (by simp [h])]
    simp [h]

lemma hasKey_dictInsert (d : List (String × String)) (k v c : String) :
    hasKey (dictInsert d k v) c = (hasKey d c || c == k) := by
  induction d with
  | nil =>
    by_cases h : c = k
    · simp [dictInsert, hasKey, h]
    · simp [dictInsert, hasKey, h, Ne.symm h]
  | cons p rest ih =>
    by_cases hpk : p.1 = k
    · by_cases hck : c = k <;>
        simp [dictInsert, hasKey, hpk, hck]
    · have hbeq : (p.1 == k) = false := by simp [hpk]
      simp only [dictInsert, hbeq, Bool.false_eq_true, if_false, hasKey, List.any_cons]
      have hrw : (dictInsert rest k v).any (fun p => p.1 == c)
          = (rest.any (fun p => p.1 == c) || (c == k)) := ih
      rw [hrw, Bool.or_assoc]

lemma dictLookup_dictInsert (d : List (String × String)) (k v c : String) :
    dictLookup (dictInsert d k v) c = if c = k then some v else dictLookup d c := by
  induction d with
  | nil =>
    by_cases h : c = k
    · simp [dictInsert, dictLookup_cons, dictLookup_nil, h]
    · simp [dictInsert, dictLookup_cons, dictLookup_nil, h, Ne.symm h]
  | cons p rest ih =>
    by_cases hpk : p.1 = k
    · by_cases hck : c = k
      · simp [dictInsert, dictLookup_cons, hpk, hck]
      · have hpc : ¬ p.1 = c := by rw [hpk]; exact Ne.symm hck
        simp [dictInsert, dictLookup_cons, hpk, hck, hpc, Ne.symm hck]
    · have hbeq : (p.1 == k) = false := by simp [hpk]
      by_cases hpc : p.1 = c
      · have hck : ¬ c = k := fun h => hpk (hpc.trans h)
        simp only [dictInsert, hbeq, Bool.false_eq_true, if_false]
        simp [dictLookup_cons, hpc, hck]
      · simp only [dictInsert, hbeq, Bool.false_eq_true, if_false]
        rw [dictLookup_cons, dictLookup_cons, if_neg hpc, if_neg hpc, ih]

lemma hasKey_foldl_of_some {oracle : String → Nat → Except String String} {retries : Nat}
    {chans : List String}
    (h : ∀ ch ∈ chans, (channelResult oracle retries ch).isSome = true) :
    ∀ (acc : List (String × String)) (c : String),
      hasKey (chans.foldl (generate_social_step oracle retries) acc) c
        = (hasKey acc c || chans.contains c) := by
  induction chans with
  | nil => intro acc c; simp
  | cons ch chs ih =>
    intro acc c
    have hch := h ch (List.mem_cons_self ch chs)
    obtain ⟨v, hv⟩ := Option.isSome_iff_exists.mp hch
    have hstep : generate_social_step oracle retries acc ch = dictInsert acc ch v := by
      simp [generate_social_step, hv]
    simp only [List.foldl_cons, hstep]
    rw [ih (fun x hx => h x (List.mem_cons_of_mem ch hx))]
    rw [hasKey_dictInsert]
    by_cases hcc : c = ch <;> by_cases hmem : c ∈ chs <;>
      simp [hcc, hmem, List.contains_cons, Bool.or_comm, Bool.or_assoc, Bool.or_left_comm]

lemma dictLookup_foldl {oracle : String → Nat → Except String String} {retries : Nat}
    {c v : String} (hres : channelResult oracle retries c = some v) :
    ∀ (chans : List String) (acc : List (String × String)),
      dictLookup (chans.foldl (generate_social_step oracle retries) acc) c
        = if chans.contains c then some v else dictLookup acc c := by
  intro chans
  induction chans with
  | nil => intro acc; simp
  | cons ch chs ih =>
    intro acc
    simp only [List.foldl_cons]
    rw [ih]
    by_cases hin : chs.contains c = true
    · have hcons : (ch :: chs).contains c = true := by
        simp only [List.contains_cons, hin, Bool.or_true]
      rw [if_pos hin, if_pos hcons]
    · rw [if_neg hin]
      by_cases hcc : ch = c
      · subst hcc
        have hstep : generate_social_step oracle retries acc ch = dictInsert acc ch v := by
          simp [generate_social_step, hres]
        have hcons : (ch :: chs).contains ch = true := by
          simp [List.contains_cons]
        rw [if_pos hcons, hstep, dictLookup_dictInsert, if_pos rfl]
      · have hlook : dictLookup (generate_social_step oracle retries acc ch) c = dictLookup acc c := by
          unfold generate_social_step
          cases hr : channelResult oracle retries ch with
          | some w => rw [dictLookup_dictInsert, if_neg (Ne.symm hcc)]
          | none => rfl
        have hmem : c ∉ chs := by simpa using hin
        have hcons : ¬ ((ch :: chs).contains c = true) := by
          simp only [List.contains_cons]
          simp [Ne.symm hcc, hmem]
        rw [if_neg hcons, hlook]

/-! ## The cron worker loop: `cron_function` (mcg.py lines 168-196)

`cron_function` is embedded as a small-step machine over a program counter.
Each step may emit observable actions: the `generate_blog_title` call, the
`generate_blog_content` call, the `publish_blog_post` call, and one
`time.sleep(5)` slice.  The stop event (`cron_stop_event`) is a `Bool`
parameter of the step function: running with `stop = true` describes the
loop's behaviour from the moment the event has been set onward.  The
outcome of the body-generation call (`generate_blog_content` returns the
text or `None` on backend error) is the `body : Option String` parameter. -/

/-- `interval // 5` slices of the 1800-second interval. -/
def numSlices : Nat := 1800 / 5

/-- `if blog_content:` — Python truthiness of the generated body. -/
def bodyTruthy : Option String → Bool
  | none => false
  | some s => s ≠ ""

/-- Program counter of `cron_function`. -/
inductive CronPC where
  | loopTop                -- about to evaluate `while not cron_stop_event.is_set()`
  | genTitle               -- about to call `generate_blog_title`
  | genBody                -- about to call `generate_blog_content`
  | publishCheck           -- about to evaluate `if blog_content:`
  | sliceCheck (i : Nat)   -- in the sleep loop, about to check the stop event
  | sleepSlice (i : Nat)   -- in the sleep loop, about to `time.sleep(5)`
  | done                   -- returned
  deriving DecidableEq, Repr

/-- Observable actions of one `cron_function` iteration. -/
inductive CronAct where
  | actGenTitle
  | actGenBody
  | actPublish
  | actSleep
  deriving DecidableEq, Repr

/-- One step of `cron_function`.  The stop-event checks sit exactly where
the source checks `cron_stop_event.is_set()`: at the `while` head and at
the top of every 5-second slice of the sleep loop. -/
def cronStep (stop : Bool) (body : Option String) : CronPC → CronPC × List CronAct
  | CronPC.loopTop => if stop then (CronPC.done, []) else (CronPC.genTitle, [])
  | CronPC.genTitle => (CronPC.genBody, [CronAct.actGenTitle])
  | CronPC.genBody => (CronPC.publishCheck, [CronAct.actGenBody])
  | CronPC.publishCheck =>
    if bodyTruthy body then (CronPC.sliceCheck 0, [CronAct.actPublish])
    else (CronPC.sliceCheck 0, [])
  | CronPC.sliceCheck i => if stop then (CronPC.done, []) else (CronPC.sleepSlice i, [])
  | CronPC.sleepSlice i =>
    if i + 1 < numSlices then (CronPC.sliceCheck (i + 1), [CronAct.actSleep])
    else (CronPC.loopTop, [CronAct.actSleep])
  | CronPC.done => (CronPC.done, [])

/-- Fuelled run of the machine, collecting the emitted actions
(`done` self-loops emitting nothing, so fuel only bounds the observation
window). -/
def cronRun (stop : Bool) (body : Option String) : Nat → CronPC → List CronAct
  | 0, _ => []
  | fuel + 1, pc =>
    let s := cronStep stop body pc
    s.2 ++ cronRun stop body fuel s.1

/-- The manual "Generate and Publish Blog Post" button handler
(mcg.py lines 352-365), after the non-empty-fields validation: run
`generate_blog_content`, and only when the result is truthy call
`publish_blog_post`.  Returns the displayed outcome and whether
`publish_blog_post` was called. -/
inductive ManualOutcome where
  | publishedOk        -- st.success("Blog post published successfully!")
  | publishFailedMsg   -- st.error("Failed to publish blog post. ...")
  | generationFailedMsg -- st.error("Failed to generate blog content.")
  deriving DecidableEq, Repr

def manual_generate (blog_content : Option String) (resp : Except String HttpResponse) :
    ManualOutcome × Bool :=
  if bodyTruthy blog_content then
    if publish_blog_post resp then (ManualOutcome.publishedOk, true)
    else (ManualOutcome.publishFailedMsg, true)
  else
    (ManualOutcome.generationFailedMsg, false)

/-! ## Thread lifecycle: `start_cron_job` / `stop_cron_job`
(mcg.py lines 198-217)

The globals `cron_thread`, `cron_stop_event`, `cron_topic`, `cron_keywords`
become a state record.  `workers` is the history of every thread ever
spawned, as alive-flags in spawn order; the `cron_thread` global is the
last entry (`none` before any spawn).  Steps: `start_cron_job`,
`stop_cron_job`, and `workerExit i` (thread `i` returns from
`cron_function`). -/

structure CronState where
  workers : List Bool          -- alive flag of each spawned worker, in spawn order
  stopEvent : Bool             -- cron_stop_event
  topic : Option String        -- cron_topic
  keywords : List String       -- cron_keywords
  deriving DecidableEq, Repr

/-- The initial module state: no thread, event cleared. -/
def initCronState : CronState :=
  { workers := [], stopEvent := false, topic := none, keywords := [] }

/-- `start_cron_job(topic, keywords)`: store the job spec, clear the stop
event, and spawn a new thread only when `cron_thread is None or not
cron_thread.is_alive()`. -/
def start_cron_job (s : CronState) (topic : String) (keywords : List String) : CronState :=
  let s' := { s with topic := some topic, keywords := keywords, stopEvent := false }
  match s'.workers.getLast? with
  | some true => s'                                      -- live thread: no spawn
  | _ => { s' with workers := s'.workers ++ [true] }     -- spawn a fresh thread

/-- `stop_cron_job()`: set the stop event. -/
def stop_cron_job (s : CronState) : CronState :=
  { s with stopEvent := true }

/-- Worker thread `i` returns (its `cron_function` call exits). -/
def workerExit (s : CronState) (i : Nat) : CronState :=
  { s with workers := s.workers.set i false }

/-- Number of live worker threads. -/
def liveWorkers (s : CronState) : Nat :=
  (s.workers.filter id).length

/-- States reachable from module initialisation through the API and
worker-exit events. -/
inductive ReachableCron : CronState → Prop where
  | init : ReachableCron initCronState
  | start {s} (topic : String) (keywords : List String) :
      ReachableCron s → ReachableCron (start_cron_job s topic keywords)
  | stop {s} : ReachableCron s → ReachableCron (stop_cron_job s)
  | exit {s} (i : Nat) : ReachableCron s → ReachableCron (workerExit s i)

/-! ### Lemmas about the cron machine -/

lemma cronRun_done (stop : Bool) (body : Option String) :
    ∀ fuel, cronRun stop body fuel CronPC.done = [] := by
  intro fuel
  induction fuel with
  | zero => rfl
  | succ n ih => simp [cronRun, cronStep, ih]

lemma cronRun_stop_loopTop (body : Option String) (fuel : Nat) :
    cronRun true body fuel CronPC.loopTop = [] := by
  cases fuel with
  | zero => rfl
  | succ n => simp [cronRun, cronStep, cronRun_done]

lemma cronRun_stop_sliceCheck (body : Option String) (fuel i : Nat) :
    cronRun true body fuel (CronPC.sliceCheck i) = [] := by
  cases fuel with
  | zero => rfl
  | succ n => simp [cronRun, cronStep, cronRun_done]

lemma cronRun_stop_sleepSlice (body : Option String) (fuel i : Nat) :
    cronRun true body fuel (CronPC.sleepSlice i) = []
      ∨ cronRun true body fuel (CronPC.sleepSlice i) = [CronAct.actSleep] := by
  cases fuel with
  | zero => exact Or.inl rfl
  | succ n =>
    right
    by_cases h5 : i + 1 < numSlices
    · simp [cronRun, cronStep, h5, cronRun_stop_sliceCheck]
    · simp [cronRun, cronStep, h5, cronRun_stop_loopTop]

lemma actPublish_not_mem_cronRun {body : Option String} (hb : bodyTruthy body = false)
    (stop : Bool) :
    ∀ fuel pc, CronAct.actPublish ∉ cronRun stop body fuel pc := by
  intro fuel
  induction fuel with
  | zero => intro pc; simp [cronRun]
  | succ n ih =>
    intro pc
    cases pc with
    | loopTop => cases stop <;> simp [cronRun, cronStep, ih]
    | genTitle => simp [cronRun, cronStep, ih]
    | genBody => simp [cronRun, cronStep, ih]
    | publishCheck => simp [cronRun, cronStep, hb, ih]
    | sliceCheck i => cases stop <;> simp [cronRun, cronStep, ih]
    | sleepSlice i => by_cases h5 : i + 1 < numSlices <;> simp [cronRun, cronStep, h5, ih]
    | done => simp [cronRun, cronStep, ih]

/-! ### Lemmas about the thread lifecycle -/

/-- The inductive invariant: every spawned worker other than the most
recent one is dead. -/
def OnlyLastAlive (s : CronState) : Prop :=
  ∀ i, (h : i + 1 < s.workers.length) → s.workers[i] = false

lemma onlyLastAlive_of_reachable {s : CronState} (hr : ReachableCron s) :
    OnlyLastAlive s := by
  induction hr with
  | init => intro i h; simp [initCronState] at h
  | start topic keywords _ ih =>
    rename_i s' _
    unfold start_cron_job
    cases hL : s'.workers.getLast? with
    | some b =>
      cases b with
      | true =>
        simp only [hL]
        exact ih
      | false =>
        simp only [hL]
        intro i h
        simp only [List.length_append, List.length_cons, List.length_nil] at h
        have hi : i < s'.workers.length := by omega
        rw [List.getElem_append_left hi]
        by_cases hlt : i + 1 < s'.workers.length
        · exact ih i hlt
        · -- i is the index of the old last element, which is dead
          have hidx : i = s'.workers.length - 1 := by omega
          rw [List.getLast?_eq_getElem?] at hL
          rw [List.getElem?_eq_some_iff] at hL
          obtain ⟨hlen, hval⟩ := hL
          subst hidx
          exact hval
    | none =>
      have hnil : s'.workers = [] := List.getLast?_eq_none_iff.mp hL
      simp only [hL]
      intro i h
      simp [hnil] at h
  | stop _ ih => exact ih
  | exit k _ ih =>
    intro i h
    simp only [workerExit, List.length_set] at h ⊢
    rw [List.getElem_set]
    by_cases hk : k = i
    · simp [hk]
    · simp only [hk, if_false]
      exact ih i h

lemma filter_id_length_le_one {l : List Bool}
    (h : ∀ i, (hi : i + 1 < l.length) → l[i] = false) :
    (l.filter id).length ≤ 1 := by
  induction l with
  | nil => simp
  | cons b bs ih =>
    cases bs with
    | nil => cases b <;> simp
    | cons b' bs' =>
      have hb : b = false := h 0 (by simp)
      subst hb
      rw [show List.filter id (false :: b' :: bs') = List.filter id (b' :: bs') from rfl]
      apply ih
      intro i hi
      have := h (i + 1) (by simp only [List.length_cons] at hi ⊢; omega)
      simpa using this

lemma liveWorkers_le_one_of_reachable {s : CronState} (hr : ReachableCron s) :
    liveWorkers s ≤ 1 :=
  filter_id_length_le_one (onlyLastAlive_of_reachable hr)

lemma start_cron_job_no_spawn {s : CronState} (topic : String) (keywords : List String)
    (halive : s.workers.getLast? = some true) :
    (start_cron_job s topic keywords).workers = s.workers := by
  unfold start_cron_job
  simp [halive]

lemma start_cron_job_last_alive (s : CronState) (topic : String) (keywords : List String) :
    (start_cron_job s topic keywords).workers.getLast? = some true := by
  unfold start_cron_job
  cases hL : s.workers.getLast? with
  | some b =>
    cases b with
    | true => simp [hL]
    | false => simp [hL, List.getLast?_concat]
  | none => simp [hL, List.getLast?_concat]

/-! ## Claim theorems -/

/-- C4: for every content string and every channel, the length of
`limit_post_length(content, channel)` is at most the channel's maximum
length, where the maximum is 280 for X, 2000 for Facebook, 3000 for
LinkedIn, 2200 for Instagram, 150 for TikTok, 1000 for Youtube, and 2000
for any unrecognised channel. -/
theorem limit_respects_channel_max :
    (∀ content channel, (limit_post_length content channel).length ≤ max_length channel) ∧
    (max_length "X" = 280 ∧ max_length "Facebook" = 2000 ∧ max_length "LinkedIn" = 3000 ∧
      max_length "Instagram" = 2200 ∧ max_length "TikTok" = 150 ∧ max_length "Youtube" = 1000) ∧
    (∀ channel, channel ∉ ["X", "Facebook", "LinkedIn", "Instagram", "TikTok", "Youtube"] →
      max_length channel = 2000) := by
  refine ⟨length_limit_post_length_le, by decide, ?_⟩
  intro channel h
  simp only [List.mem_cons, List.not_mem_nil, or_false, not_or] at h
  obtain ⟨h1, h2, h3, h4, h5, h6⟩ := h
  have b1 : (channel == "X") = false := by simp [h1]
  have b2 : (channel == "Facebook") = false := by simp [h2]
  have b3 : (channel == "LinkedIn") = false := by simp [h3]
  have b4 : (channel == "Instagram") = false := by simp [h4]
  have b5 : (channel == "TikTok") = false := by simp [h5]
  have b6 : (channel == "Youtube") = false := by simp [h6]
  simp [max_length, limits, List.lookup, b1, b2, b3, b4, b5, b6]

/-- Witness for C4: the unrecognised-channel hypothesis discharged at the
concrete channel name "Threads", alongside an instance of the bound. -/
theorem limit_respects_channel_max_witness :
    (limit_post_length "Hello there! Bye." "TikTok").length ≤ max_length "TikTok" ∧
    "Threads" ∉ ["X", "Facebook", "LinkedIn", "Instagram", "TikTok", "Youtube"] ∧
    max_length "Threads" = 2000 :=
  ⟨limit_respects_channel_max.1 "Hello there! Bye." "TikTok",
   by decide,
   limit_respects_channel_max.2.2 "Threads" (by decide)⟩

/-- C6: content already within the channel limit is returned unchanged. -/
theorem limit_identity_below_threshold (content channel : String)
    (h : content.length ≤ max_length channel) :
    limit_post_length content channel = content :=
  limit_post_length_of_le h

/-- Witness for C6: the spec's scenario — `"Short post."` on channel `"X"`
is within the 280-character limit and comes back unchanged. -/
theorem limit_identity_below_threshold_witness :
    "Short post.".length ≤ max_length "X" ∧
    limit_post_length "Short post." "X" = "Short post." :=
  ⟨by decide, limit_identity_below_threshold "Short post." "X" (by decide)⟩

/-- C7: `limit_post_length` is idempotent for every content string and
channel. -/
theorem limit_idempotent (content channel : String) :
    limit_post_length (limit_post_length content channel) channel
      = limit_post_length content channel :=
  limit_post_length_idem content channel

/-- C5: when the content is strictly longer than the channel limit, the
result is the first `max_length` characters cut back to (and including)
the last occurrence of `.`, `!` or `?` in that prefix; when no such
delimiter occurs in the prefix, the result is exactly the hard-truncated
prefix. -/
theorem limit_truncates_at_last_sentence_delimiter (content channel : String)
    (h : max_length channel < content.length) :
    (∀ i, IsLastDelim (content.data.take (max_length channel)) i →
        (limit_post_length content channel).data
          = (content.data.take (max_length channel)).take (i + 1)) ∧
    ((∀ c ∈ content.data.take (max_length channel), isDelim c = false) →
        (limit_post_length content channel).data
          = content.data.take (max_length channel)) := by
  have hnle : ¬ content.length ≤ max_length channel := Nat.not_le_of_lt h
  constructor
  · intro i hi
    have hld := lastDelim_eq_some_of_isLastDelim hi
    simp [limit_post_length, hnle, hld]
  · intro hno
    have hld := lastDelim_none_of_no_delim hno
    simp [limit_post_length, hnle, hld]

/-- Witness for C5: the spec's scenario — a 400-character string with no
sentence punctuation on channel "TikTok" (limit 150) yields exactly its
first 150 characters. -/
theorem limit_truncates_at_last_sentence_delimiter_witness :
    max_length "TikTok" < (String.mk (List.replicate 400 'a')).length ∧
    (limit_post_length (String.mk (List.replicate 400 'a')) "TikTok").data
      = (String.mk (List.replicate 400 'a')).data.take (max_length "TikTok") := by
  have h1 : max_length "TikTok" < (String.mk (List.replicate 400 'a')).length := by
    rw [String.length_mk, List.length_replicate]
    decide
  have h2 : ∀ c ∈ (String.mk (List.replicate 400 'a')).data.take (max_length "TikTok"),
      isDelim c = false := by
    intro c hc
    have hc2 : c ∈ List.replicate 400 'a' := List.mem_of_mem_take hc
    rw [List.eq_of_mem_replicate hc2]
    decide
  exact ⟨h1, (limit_truncates_at_last_sentence_delimiter
    (String.mk (List.replicate 400 'a')) "TikTok" h1).2 h2⟩

/-- Counterexample to C8 as stated: the CMS responds with HTTP status 201
but a body that does not parse as a JSON object — the success-path call
`response.json().get('id')` raises inside the `try`, the handler catches
it, and `publish_blog_post` returns `False` despite the 201 status.  So
"returns true if the CMS responds with HTTP status 201" is false. -/
theorem publish_counterexample :
    (HttpResponse.mk 201 none).status = 201 ∧
    publish_blog_post (Except.ok (HttpResponse.mk 201 none)) = false :=
  ⟨rfl, rfl⟩

/-- C8 (amended): `publish_blog_post` returns `true` iff the CMS responds
with HTTP status 201 *and* the response body parses as a JSON object (so
the logging call's `response.json().get('id')` succeeds); it returns
`false` for every other status code, for a 201 with an unparseable body,
and for every transport exception; it never raises to its caller (it is a
total `Bool`-valued function of the exchange outcome). -/
theorem publish_true_iff_created (resp : Except String HttpResponse) :
    publish_blog_post resp = true ↔
      ∃ r fields, resp = Except.ok r ∧ r.status = 201 ∧ r.jsonFields = some fields := by
  constructor
  · intro h
    cases resp with
    | error e => simp [publish_blog_post] at h
    | ok r =>
      by_cases hs : r.status = 201
      · cases hf : r.jsonFields with
        | some fields => exact ⟨r, fields, rfl, hs, hf⟩
        | none => simp [publish_blog_post, hs, hf] at h
      · simp [publish_blog_post, hs] at h
  · rintro ⟨r, fields, rfl, hs, hf⟩
    simp [publish_blog_post, hs, hf]

/-- Counterexample to C1 as stated: a backend that succeeds with an empty
response.  `if response:` is false, so nothing is stored for the channel,
and `break` exits the retry loop — the requested channel "X" is omitted
from the result mapping even though no retry was exhausted. -/
theorem social_keyset_counterexample :
    hasKey (generate_social_content_with_retry (fun _ _ => Except.ok "") ["X"] 3) "X" = false
      ∧ ["X"].contains "X" = true :=
  ⟨rfl, rfl⟩

/-- C1 (amended): provided at least one attempt is allowed and every
successful backend response is non-empty, the key set of
`generate_social_content_with_retry(main_content, S)` equals `S` exactly —
every requested channel has exactly one entry (generated content or an
error string), no matter how many channels fail all retries.  (A channel
whose generate call succeeds with an empty response before exhausting its
retries is omitted — see `social_keyset_counterexample`.) -/
theorem social_keyset_equals_requested (oracle : String → Nat → Except String String)
    (selected_channels : List String) (retries : Nat)
    (hr : 0 < retries)
    (hok : ∀ c a s, oracle c a = Except.ok s → s ≠ "") :
    ∀ c, hasKey (generate_social_content_with_retry oracle selected_channels retries) c
        = selected_channels.contains c := by
  intro c
  unfold generate_social_content_with_retry
  rw [hasKey_foldl_of_some]
  · rfl
  · intro ch _
    unfold channelResult
    apply channelAttempts_isSome
    · simp only [ne_eq, List.range_eq_nil]
      omega
    · intro a s hs
      exact hok ch a s hs

/-- Witness for C1 (amended): a backend that always returns "hello" with
two requested channels; the result has an entry for "X". -/
theorem social_keyset_equals_requested_witness :
    hasKey (generate_social_content_with_retry
        (fun _ _ => Except.ok "hello") ["Facebook", "X"] 3) "X" = true := by
  have h := social_keyset_equals_requested (fun _ _ => Except.ok "hello")
    ["Facebook", "X"] 3 (by decide)
    (fun c a s hs => by injection hs with hs2; rw [← hs2]; decide) "X"
  rw [h]
  rfl

/-- C9: a requested channel whose generate call raises on every attempt
gets, instead of a raised exception, a result string of the form
`"Error generating content: " ++ str(e)` — non-empty and carrying the
fixed error tag that distinguishes it from generated content. -/
theorem social_failed_channel_error_entry (oracle : String → Nat → Except String String)
    (selected_channels : List String) (retries : Nat) (c : String)
    (hr : 0 < retries)
    (hc : selected_channels.contains c = true)
    (herr : ∀ a, a < retries → ∃ e, oracle c a = Except.error e) :
    ∃ e, dictLookup (generate_social_content_with_retry oracle selected_channels retries) c
        = some (errorTag ++ e) ∧ errorTag ++ e ≠ "" := by
  have hne : List.range retries ≠ [] := by
    simp only [ne_eq, List.range_eq_nil]
    omega
  obtain ⟨e, he⟩ := @channelAttempts_all_error (oracle c) c (List.range retries) hne
    (fun a ha => herr a (List.mem_range.mp ha))
  refine ⟨e, ?_, ?_⟩
  · unfold generate_social_content_with_retry
    rw [dictLookup_foldl (show channelResult oracle retries c = some (errorTag ++ e) from he)]
    rw [if_pos hc]
  · intro hcontra
    have h2 := congrArg String.length hcontra
    rw [String.length_append] at h2
    have h3 : errorTag.length = 26 := rfl
    have h4 : ("" : String).length = 0 := rfl
    omega

/-- Witness for C9: a backend that raises "boom" on every attempt for the
single requested channel "X". -/
theorem social_failed_channel_error_entry_witness :
    ∃ e, dictLookup (generate_social_content_with_retry
        (fun _ _ => Except.error "boom") ["X"] 3) "X"
      = some (errorTag ++ e) ∧ errorTag ++ e ≠ "" :=
  social_failed_channel_error_entry (fun _ _ => Except.error "boom") ["X"] 3 "X"
    (by decide) rfl (fun a _ => ⟨"boom", rfl⟩)

/-- C2: the cron worker lifecycle never has more than one live worker
thread in any reachable state; calling `start_cron_job` while the current
thread is alive spawns nothing (the thread list is unchanged); and in
particular a second `start_cron_job` immediately after a first one never
spawns a second worker. -/
theorem start_cron_job_single_worker :
    (∀ s, ReachableCron s → liveWorkers s ≤ 1) ∧
    (∀ s topic keywords, s.workers.getLast? = some true →
        (start_cron_job s topic keywords).workers = s.workers) ∧
    (∀ s topic1 keywords1 topic2 keywords2,
        (start_cron_job (start_cron_job s topic1 keywords1) topic2 keywords2).workers
          = (start_cron_job s topic1 keywords1).workers) :=
  ⟨fun _ hr => liveWorkers_le_one_of_reachable hr,
   fun _ topic keywords h => start_cron_job_no_spawn topic keywords h,
   fun s topic1 keywords1 topic2 keywords2 =>
     start_cron_job_no_spawn topic2 keywords2 (start_cron_job_last_alive s topic1 keywords1)⟩

/-- Witness for C2: concrete reachable states — after one start from the
initial state there is at most one live worker; with its thread alive, a
further start leaves the thread list unchanged. -/
theorem start_cron_job_single_worker_witness :
    liveWorkers (start_cron_job initCronState "ai" ["ml"]) ≤ 1 ∧
    (start_cron_job (start_cron_job initCronState "ai" ["ml"]) "web" []).workers
      = (start_cron_job initCronState "ai" ["ml"]).workers :=
  ⟨start_cron_job_single_worker.1 _ (ReachableCron.start "ai" ["ml"] ReachableCron.init),
   start_cron_job_single_worker.2.1 (start_cron_job initCronState "ai" ["ml"]) "web" [] rfl⟩

/-- C3: once the stop event is set, the cron loop performs no further
generate or publish call past the next check point — from either kind of
check point (the `while` head, or the stop check at the head of each
5-second slice of the sleep loop) the loop emits nothing further and
exits, and from inside a slice it emits at most the completion of that
single 5-second sleep, never waiting out the full 1800-second interval. -/
theorem cron_stop_within_one_slice (body : Option String) (fuel i : Nat) :
    cronRun true body fuel CronPC.loopTop = [] ∧
    cronRun true body fuel (CronPC.sliceCheck i) = [] ∧
    (cronRun true body fuel (CronPC.sleepSlice i) = []
      ∨ cronRun true body fuel (CronPC.sleepSlice i) = [CronAct.actSleep]) :=
  ⟨cronRun_stop_loopTop body fuel, cronRun_stop_sliceCheck body fuel i,
   cronRun_stop_sleepSlice body fuel i⟩

/-- C10: when `generate_blog_content` returns `None` or the empty string
(the body check is Python truthiness), no `publish_blog_post` call
happens — the cron loop never emits a publish action (whatever the stop
event), and the manual button handler skips publishing and reports the
generation failure. -/
theorem no_publish_on_falsy_body (body : Option String)
    (h : body = none ∨ body = some "") :
    (∀ stop fuel pc, CronAct.actPublish ∉ cronRun stop body fuel pc) ∧
    (∀ resp, manual_generate body resp = (ManualOutcome.generationFailedMsg, false)) := by
  have hb : bodyTruthy body = false := by
    rcases h with rfl | rfl <;> rfl
  constructor
  · intro stop fuel pc
    exact actPublish_not_mem_cronRun hb stop fuel pc
  · intro resp
    unfold manual_generate
    rw [hb]
    simp

/-- Witness for C10: the empty-body case — ten machine steps of the cron
loop publish nothing, and the manual handler reports generation failure
without calling the publisher even though the CMS would answer 201. -/
theorem no_publish_on_falsy_body_witness :
    CronAct.actPublish ∉ cronRun false (some "") 10 CronPC.loopTop ∧
    manual_generate (some "") (Except.ok (HttpResponse.mk 201 (some [("id", 42)])))
      = (ManualOutcome.generationFailedMsg, false) :=
  ⟨(no_publish_on_falsy_body (some "") (Or.inr rfl)).1 false 10 CronPC.loopTop,
   (no_publish_on_falsy_body (some "") (Or.inr rfl)).2 _⟩

end MCG
